import Mathlib

/- Verification of the tool-definition compiler of mcp-exec (src/mcp_exec/main.py).

   Python strings are modelled as `List Char`; Python functions that can raise
   an uncaught exception are modelled as `Option`- or `Except`-valued; process
   exit via sys.exit(1) is modelled as an explicit error value. -/

set_option autoImplicit false

namespace McpExec

/- A Python string, as a list of characters. -/
abbrev PyStr := List Char

/- The whitespace characters recognised by Python's str.split with no
   separator (ASCII range). -/
def pyIsSpace (c : Char) : Bool :=
  c == ' ' || c == '\t' || c == '\n' || c == '\r' || c == '\x0b' || c == '\x0c'

/- Python `s.split(None, 1)`: strip leading whitespace; if nothing remains the
   result is `[]`; otherwise the first maximal run of non-whitespace is the
   head, the following whitespace run is consumed, and the remainder (if
   non-empty) is returned verbatim as the single further element. -/
def pySplitNone1 (s : PyStr) : List PyStr :=
  let s1 := s.dropWhile pyIsSpace
  if s1 = [] then []
  else
    let head := s1.takeWhile (fun c => !pyIsSpace c)
    let rest := (s1.dropWhile (fun c => !pyIsSpace c)).dropWhile pyIsSpace
    if rest = [] then [head] else [head, rest]

theorem dropWhile_length_le (p : Char → Bool) (l : List Char) :
    (l.dropWhile p).length ≤ l.length := by
  induction l with
  | nil => simp [List.dropWhile]
  | cons c cs ih =>
    simp only [List.dropWhile]
    cases p c
    · simp
    · exact Nat.le_succ_of_le ih

/- Python `s.split()` (whitespace tokenisation, all splits): the list of
   maximal non-whitespace runs. -/
def pySplitWsAux (cur : PyStr) : PyStr → List PyStr
  | [] => if cur = [] then [] else [cur.reverse]
  | c :: cs =>
    if pyIsSpace c then
      if cur = [] then pySplitWsAux [] cs else cur.reverse :: pySplitWsAux [] cs
    else pySplitWsAux (c :: cur) cs

def pySplitWs (s : PyStr) : List PyStr := pySplitWsAux [] s

/- `parse_spaced` (main.py lines 26-31).  `parts[0]` on an empty split raises
   IndexError, modelled as `none`. -/
def parse_spaced (val : PyStr) : Option (PyStr × PyStr) :=
  match pySplitNone1 val with
  | [] => none
  | [p] => some (p, p)
  | p :: r :: _ => some (p, r)

/- Python `s.endswith("=")`. -/
def pyEndsWithEq (s : PyStr) : Bool := s.getLast? == some '='

/- `parse_flag` (main.py lines 34-45).  Returns
   (flag, param_name, description, takes_value); `none` models the IndexError
   raised by `parts[0]` when the split is empty. -/
def parse_flag (val : PyStr) : Option (PyStr × PyStr × PyStr × Bool) :=
  match pySplitNone1 val with
  | [] => none
  | fp :: r =>
    let desc := match r with | [] => fp | d :: _ => d
    let tv := pyEndsWithEq fp
    let fp2 := if tv then fp.dropLast else fp
    let pn := fp2.dropWhile (fun c => c == '-')
    some (fp2, pn, desc, tv)

/- A positional argument declaration: the dict
   {"name": ..., "description": ...} built at main.py lines 99 and 154. -/
structure ArgDecl where
  name : PyStr
  description : PyStr
deriving DecidableEq

/- A flag declaration: the dict {"flag": ..., "name": ..., "description": ...,
   "takes_value": ...} built at main.py lines 103, 107, 161 and 168. -/
structure FlagDecl where
  flag : PyStr
  name : PyStr
  description : PyStr
  takes_value : Bool
deriving DecidableEq

/- A tool definition: the dict built at main.py lines 112-119 and 140-147. -/
structure PyTool where
  name : PyStr
  subcommand : Option PyStr
  description : PyStr
  pos_args : List ArgDecl
  flags : List FlagDecl
  required_flags : List FlagDecl
deriving DecidableEq

/- A value of a per-call argument mapping: the MCP layer delivers strings and
   booleans. -/
inductive Value where
  | str (s : PyStr)
  | bool (b : Bool)
deriving DecidableEq

/- Python truthiness for mapping values: a string is truthy iff non-empty, a
   boolean is its own truth value. -/
def pyTruthy : Value → Bool
  | .str s => decide (s ≠ [])
  | .bool b => b

/- Python `str(...)` applied to a mapping value. -/
def pyStrOf : Value → PyStr
  | .str s => s
  | .bool b => if b then "True".toList else "False".toList

/- The per-call argument mapping (a Python dict, keys unique). -/
abbrev Params := List (PyStr × Value)

/- Python `k in params` / `params[k]` as a first-match association lookup. -/
def lookupParam : Params → PyStr → Option Value
  | [], _ => none
  | (k, v) :: rest, key => if k = key then some v else lookupParam rest key

/- The positional-argument loop of build_command (main.py lines 193-194):
   `params[name]` raises KeyError when the key is absent, modelled as `none`. -/
def posSection (params : Params) : List ArgDecl → Option (List PyStr)
  | [] => some []
  | a :: rest => do
    let v ← lookupParam params a.name
    let r ← posSection params rest
    return pyStrOf v :: r

/- The required-flag loop of build_command (main.py lines 197-201): the lookup
   `params[flag["name"]]` happens before the takes_value branch, so it raises
   for value-less required flags too. -/
def reqSection (params : Params) : List FlagDecl → Option (List PyStr)
  | [] => some []
  | f :: rest => do
    let v ← lookupParam params f.name
    let r ← reqSection params rest
    return (f.flag :: (if f.takes_value then [pyStrOf v] else [])) ++ r

/- The optional-flag loop of build_command (main.py lines 204-209):
   `if name in params and params[name]:`. -/
def optSection (params : Params) : List FlagDecl → List PyStr
  | [] => []
  | f :: rest =>
    (match lookupParam params f.name with
     | some v =>
       if pyTruthy v then f.flag :: (if f.takes_value then [pyStrOf v] else [])
       else []
     | none => []) ++ optSection params rest

/- The subcommand step of build_command (main.py lines 189-190):
   `if tool.get("subcommand"):` tests Python truthiness, so an absent or empty
   subcommand is skipped. -/
def subPart (tool : PyTool) : List PyStr :=
  match tool.subcommand with
  | some sc => if sc ≠ [] then [sc] else []
  | none => []

/- `build_command` (main.py lines 184-215); `none` models an uncaught
   KeyError. -/
def build_command (base_command : PyStr) (tool : PyTool) (params : Params)
    (extra_args : List PyStr) : Option (List PyStr) := do
  let pos ← posSection params tool.pos_args
  let req ← reqSection params tool.required_flags
  return base_command :: (subPart tool ++ pos ++ req ++
    optSection params tool.flags ++ extra_args)

/- A Python dict with PyStr keys, in insertion order. -/
abbrev Dict (α : Type) := List (PyStr × α)

/- Python dict assignment `d[k] = v`: replace the value in place when the key
   exists, otherwise append the pair. -/
def dictInsert {α : Type} : Dict α → PyStr → α → Dict α
  | [], k, v => [(k, v)]
  | (k0, v0) :: rest, k, v =>
    if k0 = k then (k0, v) :: rest else (k0, v0) :: dictInsert rest k v

/- Python dict lookup `d[k]` / `k in d`. -/
def dictLookup {α : Type} : Dict α → PyStr → Option α
  | [], _ => none
  | (k0, v0) :: rest, k => if k0 = k then some v0 else dictLookup rest k

/- One property of an input schema: {"type": ..., "description": ...}. -/
structure SchemaProp where
  type : PyStr
  description : PyStr
deriving DecidableEq

/- The literal "string". -/
def strT : PyStr := "string".toList

/- The literal "boolean". -/
def boolT : PyStr := "boolean".toList

/- The MCP Tool value assembled at main.py lines 255-263: name, description,
   and the inputSchema's properties dict and required list. -/
structure McpTool where
  name : PyStr
  description : PyStr
  properties : Dict SchemaProp
  required : List PyStr
deriving DecidableEq

/- The positional loop of build_mcp_tool (main.py lines 223-228). -/
def addPosProps : Dict SchemaProp → List PyStr → List ArgDecl →
    Dict SchemaProp × List PyStr
  | props, req, [] => (props, req)
  | props, req, a :: rest =>
    addPosProps (dictInsert props a.name ⟨strT, a.description⟩)
      (req ++ [a.name]) rest

/- The required-flag loop of build_mcp_tool (main.py lines 230-241). -/
def addReqFlagProps : Dict SchemaProp → List PyStr → List FlagDecl →
    Dict SchemaProp × List PyStr
  | props, req, [] => (props, req)
  | props, req, f :: rest =>
    addReqFlagProps
      (dictInsert props f.name ⟨if f.takes_value then strT else boolT, f.description⟩)
      (req ++ [f.name]) rest

/- The optional-flag loop of build_mcp_tool (main.py lines 243-253). -/
def addOptProps : Dict SchemaProp → List FlagDecl → Dict SchemaProp
  | props, [] => props
  | props, f :: rest =>
    addOptProps
      (dictInsert props f.name ⟨if f.takes_value then strT else boolT, f.description⟩)
      rest

/- `build_mcp_tool` (main.py lines 218-263). -/
def build_mcp_tool (tool : PyTool) : McpTool :=
  let s1 := addPosProps [] [] tool.pos_args
  let s2 := addReqFlagProps s1.1 s1.2 tool.required_flags
  let props := addOptProps s2.1 tool.flags
  ⟨tool.name, tool.description, props, s2.2⟩

/- How startup parsing can abort the process: `usage` is a printed message
   followed by sys.exit(1); `exc` is an uncaught Python exception. -/
inductive CompileErr where
  | usage
  | exc
deriving DecidableEq

/- Runs a possibly-raising Python expression inside a parser. -/
def liftOpt {α : Type} : Option α → Except CompileErr α
  | some a => .ok a
  | none => .error .exc

/- The literal startup tokens recognised by the spec compiler. -/
def extraArgsTok : PyStr := "--extra-args".toList

def toolTok : PyStr := "--tool".toList

def posArgTok : PyStr := "--pos-arg".toList

def flagTok : PyStr := "--flag".toList

def reqFlagTok : PyStr := "--required-flag".toList

/- The --extra-args extraction loop of parse_args (main.py lines 59-70).
   Returns (filtered_rest, extra_args).  A trailing `--extra-args` with no
   following value is kept in the stream. -/
def extractExtraArgs : List PyStr → List PyStr × List PyStr
  | [] => ([], [])
  | [t] => ([t], [])
  | t :: v :: rest =>
    if t = extraArgsTok then
      let r := extractExtraArgs rest
      (r.1, pySplitWs v ++ r.2)
    else
      let r := extractExtraArgs (v :: rest)
      (t :: r.1, r.2)

/- The scanning loop of parse_single_tool (main.py lines 94-110), carrying the
   three accumulators.  A recognised token with no following value falls into
   the `else` branch and is skipped. -/
def singleLoop (pos : List ArgDecl) (fl : List FlagDecl) (req : List FlagDecl) :
    List PyStr → Except CompileErr (List ArgDecl × List FlagDecl × List FlagDecl)
  | [] => .ok (pos, fl, req)
  | [_] => .ok (pos, fl, req)
  | a :: v :: rest =>
    if a = posArgTok then do
      let nd ← liftOpt (parse_spaced v)
      singleLoop (pos ++ [⟨nd.1, nd.2⟩]) fl req rest
    else if a = flagTok then do
      let q ← liftOpt (parse_flag v)
      singleLoop pos (fl ++ [⟨q.1, q.2.1, q.2.2.1, q.2.2.2⟩]) req rest
    else if a = reqFlagTok then do
      let q ← liftOpt (parse_flag v)
      singleLoop pos fl (req ++ [⟨q.1, q.2.1, q.2.2.1, q.2.2.2⟩]) rest
    else
      singleLoop pos fl req (v :: rest)

/- `parse_single_tool` (main.py lines 81-121). -/
def parse_single_tool (command : PyStr) (rest : List PyStr) :
    Except CompileErr (PyStr × List PyTool) :=
  match rest with
  | [] => .error .usage
  | description :: rest1 => do
    let acc ← singleLoop [] [] [] rest1
    return (command, [⟨command, none, description, acc.1, acc.2.1, acc.2.2⟩])

/- The scanning loop of parse_multi_tool (main.py lines 129-175), carrying the
   finished tools and the currently open tool.  At end of stream the open tool
   (if any) is appended, then emptiness is rejected (lines 174-179). -/
def multiLoop (tools : List PyTool) (current : Option PyTool) :
    List PyStr → Except CompileErr (List PyTool)
  | [] =>
    let final := tools ++ current.toList
    if final = [] then .error .usage else .ok final
  | [_] =>
    let final := tools ++ current.toList
    if final = [] then .error .usage else .ok final
  | a :: v :: rest =>
    if a = toolTok then do
      let nd ← liftOpt (parse_spaced v)
      multiLoop (tools ++ current.toList)
        (some ⟨nd.1, some nd.1, nd.2, [], [], []⟩) rest
    else if a = posArgTok then
      match current with
      | none => .error .usage
      | some t => do
        let nd ← liftOpt (parse_spaced v)
        multiLoop tools (some { t with pos_args := t.pos_args ++ [⟨nd.1, nd.2⟩] }) rest
    else if a = flagTok then
      match current with
      | none => .error .usage
      | some t => do
        let q ← liftOpt (parse_flag v)
        multiLoop tools
          (some { t with flags := t.flags ++ [⟨q.1, q.2.1, q.2.2.1, q.2.2.2⟩] }) rest
    else if a = reqFlagTok then
      match current with
      | none => .error .usage
      | some t => do
        let q ← liftOpt (parse_flag v)
        multiLoop tools
          (some { t with required_flags := t.required_flags ++ [⟨q.1, q.2.1, q.2.2.1, q.2.2.2⟩] }) rest
    else
      multiLoop tools current (v :: rest)

/- `parse_multi_tool` (main.py lines 124-181). -/
def parse_multi_tool (command : PyStr) (rest : List PyStr) :
    Except CompileErr (PyStr × List PyTool) := do
  let ts ← multiLoop [] none rest
  return (command, ts)

/- `parse_args` (main.py lines 48-78): usage check, --extra-args extraction,
   then mode selection on the filtered stream. -/
def parse_args (argv : List PyStr) :
    Except CompileErr (PyStr × List PyTool × List PyStr) :=
  match argv with
  | [] => .error .usage
  | [_] => .error .usage
  | _ :: command :: rest => do
    let fe := extractExtraArgs rest
    let ct ←
      if toolTok ∈ fe.1 then parse_multi_tool command fe.1
      else parse_single_tool command fe.1
    return (ct.1, ct.2, fe.2)

/- The outcome of the process-execution collaborator (subprocess.run at
   main.py lines 286-291): normal completion, timeout, or any other raised
   exception. -/
inductive ExecResult where
  | finished (stdout : PyStr) (stderr : PyStr) (returncode : Int)
  | timedOut
  | raised (msg : PyStr)
deriving DecidableEq

/- The output formatting of call_tool (main.py lines 292-297). -/
def formatResult (stdout stderr : PyStr) (returncode : Int) : PyStr :=
  let o1 := stdout ++ (if stderr ≠ [] then "\nSTDERR:\n".toList ++ stderr else [])
  let o2 := o1 ++
    (if returncode ≠ 0 then "\nExit code: ".toList ++ (toString returncode).toList else [])
  if o2 = [] then "(no output)".toList else o2

/- The body of call_tool after a successful lookup (main.py lines 282-301).
   `build_command` runs outside the try/except, so a KeyError it raises
   propagates out of the handler: that is the `none` result. -/
def dispatchTool (exec : List PyStr → ExecResult) (base_command : PyStr)
    (tool : PyTool) (arguments : Params) (extra_args : List PyStr) : Option PyStr :=
  match build_command base_command tool arguments extra_args with
  | none => none
  | some cmd =>
    match exec cmd with
    | .finished o e rc => some (formatResult o e rc)
    | .timedOut => some "Command timed out".toList
    | .raised m => some ("Error: ".toList ++ m)

/- The tool lookup map of run_server (main.py line 271):
   `{t["name"]: t for t in tools}`. -/
def mkToolMap (tools : List PyTool) : Dict PyTool :=
  tools.foldl (fun m t => dictInsert m t.name t) []

/- The list_tools handler of run_server (main.py lines 270-275). -/
def listTools (tools : List PyTool) : List McpTool :=
  tools.map build_mcp_tool

/- The call_tool handler of run_server (main.py lines 277-301); `none` models
   an exception escaping the handler. -/
def call_tool (exec : List PyStr → ExecResult) (base_command : PyStr)
    (tool_map : Dict PyTool) (extra_args : List PyStr)
    (name : PyStr) (arguments : Params) : Option PyStr :=
  match dictLookup tool_map name with
  | none => some ("Unknown tool: ".toList ++ name)
  | some tool => dispatchTool exec base_command tool arguments extra_args

/- The optional value-taking -resize flag from the spec's round-trip example. -/
def resizeFlag : FlagDecl :=
  ⟨"-resize".toList, "resize".toList, "Resize dimensions".toList, true⟩

/- The spec's round-trip example: a tool with positional [input], required
   boolean flag -force, optional value-taking flag -resize. -/
def convertTool : PyTool :=
  ⟨"convert".toList, none, "Resize images".toList,
   [⟨"input".toList, "Input file".toList⟩],
   [resizeFlag],
   [⟨"-force".toList, "force".toList, "-force".toList, false⟩]⟩

/- The spec's round-trip mapping {input: "a.png", force: true, resize: "50%"}. -/
def convertParams : Params :=
  [("input".toList, .str "a.png".toList), ("force".toList, .bool true),
   ("resize".toList, .str "50%".toList)]

/- The round-trip mapping with the optional `resize` key omitted. -/
def paramsNoResize : Params :=
  [("input".toList, .str "a.png".toList), ("force".toList, .bool true)]

/- The schema property derived from a flag declaration (main.py lines
   230-253): string-typed when the flag takes a value, else boolean-typed. -/
def flagPropOf (f : FlagDecl) : SchemaProp :=
  ⟨if f.takes_value then strT else boolT, f.description⟩

/- A tool whose positional argument and required flag derive the same schema
   key "x". -/
def collidingTool : PyTool :=
  ⟨"t".toList, none, "d".toList, [⟨"x".toList, "X".toList⟩], [],
   [⟨"-x".toList, "x".toList, "-x".toList, false⟩]⟩

/- The single-tool compilation result for base command `convert` with
   description `Resize images` and no declarations. -/
def singleOut : PyStr × List PyTool :=
  ("convert".toList, [⟨"convert".toList, none, "Resize images".toList, [], [], []⟩])

/- Two tool definitions sharing the name "a", as produced by a multi-tool
   compilation with a repeated --tool name. -/
def toolA : PyTool := ⟨"a".toList, some "a".toList, "first".toList, [], [], []⟩

def toolB : PyTool := ⟨"a".toList, some "a".toList, "second".toList, [], [], []⟩

/- A tool with one positional argument and nothing else. -/
def inputOnlyTool : PyTool :=
  ⟨"convert".toList, none, "d".toList,
   [⟨"input".toList, "Input file".toList⟩], [], []⟩

/- A startup token that is none of the four recognised specification tokens. -/
def plainTok (t : PyStr) : Prop :=
  t ≠ toolTok ∧ t ≠ posArgTok ∧ t ≠ flagTok ∧ t ≠ reqFlagTok

instance (t : PyStr) : Decidable (plainTok t) := by
  unfold plainTok
  infer_instance

theorem pySplitNone1_eq_nil_iff (s : PyStr) :
    pySplitNone1 s = [] ↔ s.dropWhile pyIsSpace = [] := by
  simp only [pySplitNone1]
  by_cases h1 : s.dropWhile pyIsSpace = []
  · simp [h1]
  · simp only [h1, if_false, iff_false]
    split <;> simp [h1]

theorem pySplitNone1_all_nonspace (s : PyStr) (hne : s ≠ [])
    (h : ∀ c ∈ s, pyIsSpace c = false) : pySplitNone1 s = [s] := by
  have hd : s.dropWhile pyIsSpace = s := by
    cases s with
    | nil => simp
    | cons c cs =>
      rw [List.dropWhile_cons]
      simp [h c (by simp)]
  have ht : s.takeWhile (fun c => !pyIsSpace c) = s := by
    rw [List.takeWhile_eq_self_iff]
    intro c hc
    simp [h c hc]
  have hdn : s.dropWhile (fun c => !pyIsSpace c) = [] := by
    rw [List.dropWhile_eq_nil_iff]
    intro c hc
    simp [h c hc]
  simp only [pySplitNone1, hd, ht, hdn]
  cases s with
  | nil => exact absurd rfl hne
  | cons c cs => simp

/-- Claim C3 (amended): parseSpaced and parseFlag return a well-defined result
on every input containing at least one non-whitespace character, and on such
an input with no whitespace at all parseSpaced returns the token paired with
itself. -/
theorem C3_token_parsers_total_on_nonblank (s : PyStr)
    (h : ∃ c ∈ s, pyIsSpace c = false) :
    (parse_spaced s).isSome = true ∧ (parse_flag s).isSome = true ∧
      ((∀ c ∈ s, pyIsSpace c = false) → parse_spaced s = some (s, s)) := by
  have hnn : pySplitNone1 s ≠ [] := by
    rw [Ne, pySplitNone1_eq_nil_iff, List.dropWhile_eq_nil_iff]
    intro hc
    obtain ⟨c, hmem, hcs⟩ := h
    rw [hc c hmem] at hcs
    simp at hcs
  refine ⟨?_, ?_, ?_⟩
  · unfold parse_spaced
    cases e : pySplitNone1 s with
    | nil => exact absurd e hnn
    | cons p r => cases r <;> simp
  · unfold parse_flag
    cases e : pySplitNone1 s with
    | nil => exact absurd e hnn
    | cons p r => simp
  · intro hall
    have hne : s ≠ [] := by
      rintro rfl
      obtain ⟨c, hmem, _⟩ := h
      exact absurd hmem (List.not_mem_nil c)
    rw [parse_spaced, pySplitNone1_all_nonspace s hne hall]

/-- Claim C3 counterexample: on the empty string and on whitespace-only
strings, parse_spaced and parse_flag evaluate `parts[0]` of an empty split and
raise IndexError (modelled as `none`), so they are not total. -/
theorem C3_counterexample :
    parse_spaced ([] : PyStr) = none ∧ parse_flag ([] : PyStr) = none ∧
      parse_spaced " ".toList = none ∧ parse_flag " \t ".toList = none := by
  decide

/-- Claim C3 witness: a concrete whitespace-free token on which both parsers
succeed and parse_spaced doubles the token as its own description. -/
theorem C3_witness :
    (parse_spaced "file".toList).isSome = true ∧
      (parse_flag "file".toList).isSome = true ∧
      parse_spaced "file".toList = some ("file".toList, "file".toList) := by
  have h := C3_token_parsers_total_on_nonblank "file".toList (by decide)
  exact ⟨h.1, h.2.1, h.2.2 (by decide)⟩

/-- Claim C6: parse_flag marks takesValue exactly when the flag portion (the
text before the first whitespace) ends with '=', strips that trailing '=' from
the returned flag, strips all leading '-' characters from that flag to get the
parameter name, and reuses the flag portion as description when the token has
no whitespace-separated description. -/
theorem C6_parse_flag_fields (val fp : PyStr) (r : List PyStr)
    (h : pySplitNone1 val = fp :: r) :
    parse_flag val = some
      (if fp.getLast? = some '=' then fp.dropLast else fp,
       (if fp.getLast? = some '=' then fp.dropLast else fp).dropWhile (fun c => c == '-'),
       r.headD fp,
       decide (fp.getLast? = some '=')) := by
  have he : pyEndsWithEq fp = decide (fp.getLast? = some '=') := by
    simp [pyEndsWithEq, Bool.beq_eq_decide_eq]
  unfold parse_flag
  rw [h]
  cases r with
  | nil => simp [he, List.headD]
  | cons d tl => simp [he, List.headD]

/-- Claim C6 witness: the two flag tokens from the spec parse to the stated
quadruples. -/
theorem C6_witness :
    parse_flag "-resize= Resize dimensions".toList =
      some ("-resize".toList, "resize".toList, "Resize dimensions".toList, true) ∧
    parse_flag "-verbose".toList =
      some ("-verbose".toList, "verbose".toList, "-verbose".toList, false) := by
  constructor
  · exact (C6_parse_flag_fields "-resize= Resize dimensions".toList "-resize=".toList
      ["Resize dimensions".toList] (by decide)).trans (by decide)
  · exact (C6_parse_flag_fields "-verbose".toList "-verbose".toList
      [] (by decide)).trans (by decide)

theorem extractExtraArgs_cons_other (t : PyStr) (l : List PyStr)
    (h : t ≠ extraArgsTok) :
    extractExtraArgs (t :: l) =
      (t :: (extractExtraArgs l).1, (extractExtraArgs l).2) := by
  cases l with
  | nil => simp [extractExtraArgs]
  | cons v rest => simp [extractExtraArgs, h]

theorem extractExtraArgs_cons_tok (v : PyStr) (l : List PyStr) :
    extractExtraArgs (extraArgsTok :: v :: l) =
      ((extractExtraArgs l).1, pySplitWs v ++ (extractExtraArgs l).2) := by
  simp [extractExtraArgs]

/-- Claim C5: every occurrence of `--extra-args` followed by a value is removed
together with its value from the startup stream, the value is
whitespace-tokenized and appended to extraArgs in encounter order, and since
the equation recurses through the remaining stream, later occurrences
accumulate after earlier ones instead of overwriting them. -/
theorem C5_extra_args_accumulate (s1 : List PyStr) (v : PyStr) (s2 : List PyStr)
    (h : extraArgsTok ∉ s1) :
    extractExtraArgs (s1 ++ extraArgsTok :: v :: s2) =
      (s1 ++ (extractExtraArgs s2).1, pySplitWs v ++ (extractExtraArgs s2).2) := by
  induction s1 with
  | nil => simpa using extractExtraArgs_cons_tok v s2
  | cons t tl ih =>
    have ht : t ≠ extraArgsTok := by
      intro e
      exact h (by simp [e])
    rw [List.cons_append, extractExtraArgs_cons_other t _ ht,
      ih (fun hm => h (List.mem_cons_of_mem _ hm))]
    simp

/-- Claim C5 witness: the spec's double `--extra-args "a b c"` accumulates both
token lists in encounter order, and both occurrences are removed from the
stream. -/
theorem C5_witness :
    extractExtraArgs
        [extraArgsTok, "a b c".toList, extraArgsTok, "d e".toList] =
      ([], ["a".toList, "b".toList, "c".toList, "d".toList, "e".toList]) := by
  exact (C5_extra_args_accumulate [] "a b c".toList
    [extraArgsTok, "d e".toList] (by decide)).trans (by decide)

theorem posSection_eq_map (params : Params) (l : List ArgDecl)
    (h : ∀ a ∈ l, (lookupParam params a.name).isSome = true) :
    posSection params l =
      some (l.map (fun a => pyStrOf ((lookupParam params a.name).getD (.str [])))) := by
  induction l with
  | nil => simp [posSection]
  | cons a tl ih =>
    obtain ⟨v, hv⟩ := Option.isSome_iff_exists.mp (h a (by simp))
    simp [posSection, hv, ih (fun x hx => h x (by simp [hx]))]

theorem reqSection_eq_flatMap (params : Params) (l : List FlagDecl)
    (h : ∀ f ∈ l, (lookupParam params f.name).isSome = true) :
    reqSection params l =
      some (l.flatMap (fun f => f.flag ::
        (if f.takes_value then [pyStrOf ((lookupParam params f.name).getD (.str []))]
         else []))) := by
  induction l with
  | nil => simp [reqSection]
  | cons f tl ih =>
    obtain ⟨v, hv⟩ := Option.isSome_iff_exists.mp (h f (by simp))
    simp [reqSection, hv, ih (fun x hx => h x (by simp [hx]))]

/-- Claim C2: when the mapping supplies every positional and required-flag key,
build_command returns exactly the base command, then the subcommand if set,
then the positional values in declared order, then the required flags (each
with its value when takesValue) in declared order, then the rendered optional
flags in declared order, then all extraArgs in order. -/
theorem C2_build_command_order (base : PyStr) (tool : PyTool) (params : Params)
    (extra : List PyStr)
    (hsub : tool.subcommand ≠ some [])
    (hpos : ∀ a ∈ tool.pos_args, (lookupParam params a.name).isSome = true)
    (hreq : ∀ f ∈ tool.required_flags, (lookupParam params f.name).isSome = true) :
    build_command base tool params extra =
      some (base :: (tool.subcommand.toList ++
        tool.pos_args.map (fun a => pyStrOf ((lookupParam params a.name).getD (.str []))) ++
        tool.required_flags.flatMap (fun f => f.flag ::
          (if f.takes_value then [pyStrOf ((lookupParam params f.name).getD (.str []))]
           else [])) ++
        optSection params tool.flags ++ extra)) := by
  have hs : subPart tool = tool.subcommand.toList := by
    unfold subPart
    cases hc : tool.subcommand with
    | none => simp
    | some sc =>
      cases sc with
      | nil => exact absurd hc hsub
      | cons c cs => simp
  rw [build_command, posSection_eq_map params tool.pos_args hpos,
    reqSection_eq_flatMap params tool.required_flags hreq]
  simp [hs]

/-- Claim C2 witness: the spec's round-trip example builds exactly
[baseCommand, "a.png", "-force", "-resize", "50%", "--quiet"]. -/
theorem C2_witness :
    build_command "convert".toList convertTool convertParams ["--quiet".toList] =
      some ["convert".toList, "a.png".toList, "-force".toList, "-resize".toList,
        "50%".toList, "--quiet".toList] := by
  exact (C2_build_command_order "convert".toList convertTool convertParams
    ["--quiet".toList] (by decide) (by decide) (by decide)).trans (by decide)

/-- Claim C8: the Command Builder renders an optional flag declaration (its
flag, plus its value when takesValue) exactly when the declaration's paramName
is present in the mapping with a truthy value; when the value is falsy or the
key is absent nothing is appended; rendering a list of optional flags is the
concatenation of the per-flag renderings; and truthiness means non-empty
string or boolean true. -/
theorem C8_optional_flag_truthiness (fd : FlagDecl) (params : Params) :
    (∀ v, lookupParam params fd.name = some v → pyTruthy v = true →
      optSection params [fd] = fd.flag :: (if fd.takes_value then [pyStrOf v] else []))
  ∧ (∀ v, lookupParam params fd.name = some v → pyTruthy v = false →
      optSection params [fd] = [])
  ∧ (lookupParam params fd.name = none → optSection params [fd] = [])
  ∧ (∀ rest, optSection params (fd :: rest) =
      optSection params [fd] ++ optSection params rest)
  ∧ (∀ s, pyTruthy (Value.str s) = decide (s ≠ []))
  ∧ (∀ b, pyTruthy (Value.bool b) = b) := by
  refine ⟨?_, ?_, ?_, ?_, fun s => rfl, fun b => rfl⟩
  · intro v hv ht
    simp [optSection, hv, ht]
  · intro v hv ht
    simp [optSection, hv, ht]
  · intro hv
    simp [optSection, hv]
  · intro rest
    simp [optSection]

/-- Claim C8 witness: with `resize` omitted from the mapping nothing is
rendered for the optional -resize flag, and with `resize` mapped to the
non-empty string "50%" the flag and its value are rendered. -/
theorem C8_witness :
    optSection paramsNoResize [resizeFlag] = [] ∧
      optSection convertParams [resizeFlag] = ["-resize".toList, "50%".toList] := by
  constructor
  · exact (C8_optional_flag_truthiness resizeFlag paramsNoResize).2.2.1 (by decide)
  · exact ((C8_optional_flag_truthiness resizeFlag convertParams).1
      (.str "50%".toList) (by decide) (by decide)).trans (by decide)

theorem dictLookup_insert_self {α : Type} (d : Dict α) (k : PyStr) (v : α) :
    dictLookup (dictInsert d k v) k = some v := by
  induction d with
  | nil => simp [dictInsert, dictLookup]
  | cons p rest ih =>
    obtain ⟨k0, v0⟩ := p
    by_cases h : k0 = k
    · simp [dictInsert, dictLookup, h]
    · simp [dictInsert, dictLookup, h, ih]

theorem dictLookup_insert_ne {α : Type} (d : Dict α) (k k2 : PyStr) (v : α)
    (h : k2 ≠ k) :
    dictLookup (dictInsert d k v) k2 = dictLookup d k2 := by
  have h' : k ≠ k2 := fun e => h e.symm
  induction d with
  | nil => simp [dictInsert, dictLookup, h']
  | cons p rest ih =>
    obtain ⟨k0, v0⟩ := p
    by_cases h0 : k0 = k
    · simp [dictInsert, dictLookup, h0, h']
    · by_cases h2 : k0 = k2
      · simp [dictInsert, dictLookup, h0, h2, h]
      · simp [dictInsert, dictLookup, h0, h2, ih]

theorem addPosProps_snd (props : Dict SchemaProp) (req : List PyStr)
    (l : List ArgDecl) :
    (addPosProps props req l).2 = req ++ l.map ArgDecl.name := by
  induction l generalizing props req with
  | nil => simp [addPosProps]
  | cons a tl ih => simp [addPosProps, ih]

theorem addReqFlagProps_snd (props : Dict SchemaProp) (req : List PyStr)
    (l : List FlagDecl) :
    (addReqFlagProps props req l).2 = req ++ l.map FlagDecl.name := by
  induction l generalizing props req with
  | nil => simp [addReqFlagProps]
  | cons f tl ih => simp [addReqFlagProps, ih]

theorem addPosProps_lookup_notmem (props : Dict SchemaProp) (req : List PyStr)
    (l : List ArgDecl) (k : PyStr) (h : k ∉ l.map ArgDecl.name) :
    dictLookup (addPosProps props req l).1 k = dictLookup props k := by
  induction l generalizing props req with
  | nil => rfl
  | cons a tl ih =>
    have hk : k ≠ a.name := by
      intro e
      exact h (by simp [e])
    rw [addPosProps, ih _ _ (fun hm => h (by simp [hm]))]
    exact dictLookup_insert_ne props a.name k _ hk

theorem addReqFlagProps_lookup_notmem (props : Dict SchemaProp)
    (req : List PyStr) (l : List FlagDecl) (k : PyStr)
    (h : k ∉ l.map FlagDecl.name) :
    dictLookup (addReqFlagProps props req l).1 k = dictLookup props k := by
  induction l generalizing props req with
  | nil => rfl
  | cons f tl ih =>
    have hk : k ≠ f.name := by
      intro e
      exact h (by simp [e])
    rw [addReqFlagProps, ih _ _ (fun hm => h (by simp [hm]))]
    exact dictLookup_insert_ne props f.name k _ hk

theorem addOptProps_lookup_notmem (props : Dict SchemaProp) (l : List FlagDecl)
    (k : PyStr) (h : k ∉ l.map FlagDecl.name) :
    dictLookup (addOptProps props l) k = dictLookup props k := by
  induction l generalizing props with
  | nil => rfl
  | cons f tl ih =>
    have hk : k ≠ f.name := by
      intro e
      exact h (by simp [e])
    rw [addOptProps, ih _ (fun hm => h (by simp [hm]))]
    exact dictLookup_insert_ne props f.name k _ hk

theorem addPosProps_lookup_mem (props : Dict SchemaProp) (req : List PyStr)
    (l : List ArgDecl) (a : ArgDecl) (hnd : (l.map ArgDecl.name).Nodup)
    (ha : a ∈ l) :
    dictLookup (addPosProps props req l).1 a.name = some ⟨strT, a.description⟩ := by
  induction l generalizing props req with
  | nil => cases ha
  | cons b tl ih =>
    rcases List.mem_cons.mp ha with rfl | hmem
    · rw [List.map_cons, List.nodup_cons] at hnd
      rw [addPosProps, addPosProps_lookup_notmem _ _ _ _ hnd.1]
      exact dictLookup_insert_self props a.name _
    · rw [List.map_cons, List.nodup_cons] at hnd
      exact ih _ _ hnd.2 hmem

theorem addReqFlagProps_lookup_mem (props : Dict SchemaProp) (req : List PyStr)
    (l : List FlagDecl) (f : FlagDecl) (hnd : (l.map FlagDecl.name).Nodup)
    (hf : f ∈ l) :
    dictLookup (addReqFlagProps props req l).1 f.name = some (flagPropOf f) := by
  induction l generalizing props req with
  | nil => cases hf
  | cons g tl ih =>
    rcases List.mem_cons.mp hf with rfl | hmem
    · rw [List.map_cons, List.nodup_cons] at hnd
      rw [addReqFlagProps, addReqFlagProps_lookup_notmem _ _ _ _ hnd.1]
      exact dictLookup_insert_self props f.name _
    · rw [List.map_cons, List.nodup_cons] at hnd
      exact ih _ _ hnd.2 hmem

theorem addOptProps_lookup_mem (props : Dict SchemaProp) (l : List FlagDecl)
    (f : FlagDecl) (hnd : (l.map FlagDecl.name).Nodup) (hf : f ∈ l) :
    dictLookup (addOptProps props l) f.name = some (flagPropOf f) := by
  induction l generalizing props with
  | nil => cases hf
  | cons g tl ih =>
    rcases List.mem_cons.mp hf with rfl | hmem
    · rw [List.map_cons, List.nodup_cons] at hnd
      rw [addOptProps, addOptProps_lookup_notmem _ _ _ hnd.1]
      exact dictLookup_insert_self props f.name _
    · rw [List.map_cons, List.nodup_cons] at hnd
      exact ih _ hnd.2 hmem

/-- Claim C9 (amended): the Schema Builder's required list is exactly the
positional names followed by the required-flag paramNames; and when the
derived property keys are pairwise distinct, every positional argument yields
a required string-typed property, every required flag a required property
(string-typed iff takesValue, else boolean), and every optional flag the same
typed property without appearing in the required list. -/
theorem C9_schema_builder (tool : PyTool)
    (h : (tool.pos_args.map ArgDecl.name ++ tool.required_flags.map FlagDecl.name ++
      tool.flags.map FlagDecl.name).Nodup) :
    (build_mcp_tool tool).required =
        tool.pos_args.map ArgDecl.name ++ tool.required_flags.map FlagDecl.name
    ∧ (∀ a ∈ tool.pos_args,
        dictLookup (build_mcp_tool tool).properties a.name = some ⟨strT, a.description⟩ ∧
          a.name ∈ (build_mcp_tool tool).required)
    ∧ (∀ f ∈ tool.required_flags,
        dictLookup (build_mcp_tool tool).properties f.name = some (flagPropOf f) ∧
          f.name ∈ (build_mcp_tool tool).required)
    ∧ (∀ f ∈ tool.flags,
        dictLookup (build_mcp_tool tool).properties f.name = some (flagPropOf f) ∧
          f.name ∉ (build_mcp_tool tool).required) := by
  obtain ⟨hAB, hC, hABC⟩ := List.nodup_append.mp h
  obtain ⟨hA, hB, hAB2⟩ := List.nodup_append.mp hAB
  have hreq : (build_mcp_tool tool).required =
      tool.pos_args.map ArgDecl.name ++ tool.required_flags.map FlagDecl.name := by
    simp [build_mcp_tool, addReqFlagProps_snd, addPosProps_snd]
  refine ⟨hreq, ?_, ?_, ?_⟩
  · intro a ha
    have hmemA : a.name ∈ tool.pos_args.map ArgDecl.name := List.mem_map_of_mem _ ha
    have hnotC : a.name ∉ tool.flags.map FlagDecl.name := fun hc =>
      hABC (List.mem_append_left _ hmemA) hc
    have hnotB : a.name ∉ tool.required_flags.map FlagDecl.name := fun hb =>
      hAB2 hmemA hb
    constructor
    · simp only [build_mcp_tool]
      rw [addOptProps_lookup_notmem _ _ _ hnotC,
        addReqFlagProps_lookup_notmem _ _ _ _ hnotB]
      exact addPosProps_lookup_mem _ _ _ a hA ha
    · rw [hreq]
      exact List.mem_append_left _ hmemA
  · intro f hf
    have hmemB : f.name ∈ tool.required_flags.map FlagDecl.name :=
      List.mem_map_of_mem _ hf
    have hnotC : f.name ∉ tool.flags.map FlagDecl.name := fun hc =>
      hABC (List.mem_append_right _ hmemB) hc
    constructor
    · simp only [build_mcp_tool]
      rw [addOptProps_lookup_notmem _ _ _ hnotC]
      exact addReqFlagProps_lookup_mem _ _ _ f hB hf
    · rw [hreq]
      exact List.mem_append_right _ hmemB
  · intro f hf
    have hmemC : f.name ∈ tool.flags.map FlagDecl.name := List.mem_map_of_mem _ hf
    constructor
    · simp only [build_mcp_tool]
      exact addOptProps_lookup_mem _ _ f hC hf
    · rw [hreq]
      intro hin
      exact hABC hin hmemC

/-- Claim C9 counterexample: in collidingTool the positional argument `x` and
the boolean required flag `-x` derive the same schema key "x"; the flag's
boolean-typed property overwrites the positional argument's string-typed one,
so the builder does not produce a string-typed property for each positional,
and the required list even holds the key twice. -/
theorem C9_counterexample :
    dictLookup (build_mcp_tool collidingTool).properties "x".toList =
        some ⟨boolT, "-x".toList⟩ ∧
      boolT ≠ strT ∧
      (build_mcp_tool collidingTool).required = ["x".toList, "x".toList] := by
  decide

/-- Claim C9 witness: on the convert tool (all derived keys distinct) the
required list is [input, force], the optional resize flag gets a string-typed
property, and resize is not required. -/
theorem C9_witness :
    (build_mcp_tool convertTool).required = ["input".toList, "force".toList] ∧
      dictLookup (build_mcp_tool convertTool).properties "resize".toList =
        some ⟨strT, "Resize dimensions".toList⟩ ∧
      "resize".toList ∉ (build_mcp_tool convertTool).required := by
  have h := C9_schema_builder convertTool (by decide)
  refine ⟨h.1.trans (by decide), ?_, ?_⟩
  · exact ((h.2.2.2 resizeFlag (by decide)).1).trans (by decide)
  · exact (h.2.2.2 resizeFlag (by decide)).2

/-- Claim C4 counterexample: the multi-tool stream
`cmd --tool "a A" --tool "a B"` compiles successfully, yet both resulting
ToolDefinitions are named "a", so compiled names are not pairwise distinct. -/
theorem C4_counterexample :
    (parse_args ["mcp-exec".toList, "cmd".toList, toolTok, "a A".toList,
        toolTok, "a B".toList]).map (fun r => r.2.1.map PyTool.name) =
      .ok ["a".toList, "a".toList] ∧
      ¬ ([("a".toList : PyStr), "a".toList] : List PyStr).Nodup := by
  constructor
  · rfl
  · decide

/-- Claim C4 (amended): single-tool compilation always produces exactly one
ToolDefinition, so its name list is trivially pairwise distinct; multi-tool
compilation does not deduplicate repeated --tool names, so distinctness is not
guaranteed there. -/
theorem C4_single_mode_names_nodup (command : PyStr) (rest : List PyStr)
    (out : PyStr × List PyTool) (h : parse_single_tool command rest = .ok out) :
    out.2.length = 1 ∧ (out.2.map PyTool.name).Nodup := by
  cases rest with
  | nil =>
    simp only [parse_single_tool] at h
    cases h
  | cons d r1 =>
    simp only [parse_single_tool, bind, Except.bind] at h
    cases e : singleLoop [] [] [] r1 with
    | error er =>
      rw [e] at h
      cases h
    | ok acc =>
      rw [e] at h
      cases h
      simp

/-- Claim C4 witness: the compilation of `convert "Resize images"` yields the
single-element tool list, whose name list is duplicate-free. -/
theorem C4_witness : singleOut.2.length = 1 ∧ (singleOut.2.map PyTool.name).Nodup :=
  C4_single_mode_names_nodup "convert".toList ["Resize images".toList] singleOut rfl

theorem multiLoop_skip (tools : List PyTool) (cur : Option PyTool) (t : PyStr)
    (l : List PyStr) (h : plainTok t) :
    multiLoop tools cur (t :: l) = multiLoop tools cur l := by
  obtain ⟨h1, h2, h3, h4⟩ := h
  cases l with
  | nil => rfl
  | cons v rest => simp [multiLoop, h1, h2, h3, h4]

theorem multiLoop_decl_before_tool (s1 : List PyStr)
    (h : ∀ t ∈ s1, plainTok t) (d v : PyStr) (s2 : List PyStr)
    (hd : d = posArgTok ∨ d = flagTok ∨ d = reqFlagTok) :
    multiLoop [] none (s1 ++ d :: v :: s2) = .error .usage := by
  induction s1 with
  | nil =>
    rcases hd with rfl | rfl | rfl
    · simp only [List.nil_append, multiLoop]
      rw [if_neg (by decide : ¬ (posArgTok = toolTok))]
      simp
    · simp only [List.nil_append, multiLoop]
      rw [if_neg (by decide : ¬ (flagTok = toolTok)),
        if_neg (by decide : ¬ (flagTok = posArgTok))]
      simp
    · simp only [List.nil_append, multiLoop]
      rw [if_neg (by decide : ¬ (reqFlagTok = toolTok)),
        if_neg (by decide : ¬ (reqFlagTok = posArgTok)),
        if_neg (by decide : ¬ (reqFlagTok = flagTok))]
      simp
  | cons t tl ih =>
    rw [List.cons_append, multiLoop_skip _ _ t _ (h t (by simp))]
    exact ih (fun x hx => h x (by simp [hx]))

theorem multiLoop_ok_ne_nil_aux (n : Nat) :
    ∀ (s : List PyStr) (tools : List PyTool) (cur : Option PyTool)
      (ts : List PyTool),
      s.length ≤ n → multiLoop tools cur s = .ok ts → ts ≠ [] := by
  induction n with
  | zero =>
    intro s tools cur ts hs h
    have hse : s = [] := List.length_eq_zero.mp (Nat.le_zero.mp hs)
    subst hse
    simp only [multiLoop] at h
    split at h
    · cases h
    · next hne =>
      cases h
      exact hne
  | succ n ih =>
    intro s tools cur ts hs h
    cases s with
    | nil =>
      simp only [multiLoop] at h
      split at h
      · cases h
      · next hne =>
        cases h
        exact hne
    | cons a l =>
      cases l with
      | nil =>
        simp only [multiLoop] at h
        split at h
        · cases h
        · next hne =>
          cases h
          exact hne
      | cons v rest =>
        have hr : rest.length ≤ n := by
          simp only [List.length_cons] at hs
          omega
        have hr1 : (v :: rest).length ≤ n := by
          simp only [List.length_cons] at hs ⊢
          omega
        simp only [multiLoop, liftOpt, bind, Except.bind] at h
        split at h
        · cases ep : parse_spaced v with
          | none =>
            rw [ep] at h
            simp at h
          | some nd =>
            rw [ep] at h
            exact ih rest _ _ ts hr h
        · split at h
          · cases cur with
            | none => simp at h
            | some t =>
              cases ep : parse_spaced v with
              | none =>
                rw [ep] at h
                simp at h
              | some nd =>
                rw [ep] at h
                exact ih rest _ _ ts hr h
          · split at h
            · cases cur with
              | none => simp at h
              | some t =>
                cases ep : parse_flag v with
                | none =>
                  rw [ep] at h
                  simp at h
                | some q =>
                  rw [ep] at h
                  exact ih rest _ _ ts hr h
            · split at h
              · cases cur with
                | none => simp at h
                | some t =>
                  cases ep : parse_flag v with
                  | none =>
                    rw [ep] at h
                    simp at h
                  | some q =>
                    rw [ep] at h
                    exact ih rest _ _ ts hr h
              · exact ih (v :: rest) _ _ ts hr1 h

theorem multiLoop_finalizes (tools : List PyTool) (t : PyTool) :
    multiLoop tools (some t) [] = .ok (tools ++ [t]) := by
  have hne : tools ++ (some t).toList ≠ [] := by simp
  simp only [multiLoop]
  rw [if_neg hne]
  rfl

/-- Claim C7: in multi-tool mode, a --pos-arg, --flag or --required-flag token
with a following value that is encountered before any --tool has opened a tool
aborts compilation with the usage error; a successful multi-tool compilation
never returns zero tools (so a zero-tool scan fails); and a tool still open at
end of stream is finalized and appended to the compiled list. -/
theorem C7_multi_tool_mode_errors :
    (∀ (s1 : List PyStr), (∀ t ∈ s1, plainTok t) →
      ∀ (d v : PyStr) (s2 : List PyStr),
        d = posArgTok ∨ d = flagTok ∨ d = reqFlagTok →
        multiLoop [] none (s1 ++ d :: v :: s2) = .error .usage)
  ∧ (∀ (command : PyStr) (s : List PyStr) (out : PyStr × List PyTool),
      parse_multi_tool command s = .ok out → out.2 ≠ [])
  ∧ (∀ (tools : List PyTool) (t : PyTool),
      multiLoop tools (some t) [] = .ok (tools ++ [t])) := by
  refine ⟨multiLoop_decl_before_tool, ?_, multiLoop_finalizes⟩
  intro command s out h
  simp only [parse_multi_tool, bind, Except.bind] at h
  cases e : multiLoop [] none s with
  | error er =>
    rw [e] at h
    simp at h
  | ok ts =>
    rw [e] at h
    cases h
    exact multiLoop_ok_ne_nil_aux s.length s [] none ts (Nat.le_refl _) e

/-- Claim C7 witness: a concrete --pos-arg before any --tool (after an ignored
token) aborts with the usage error; a concrete successful compilation has a
non-empty tool list; and a concrete open tool is appended at end of stream. -/
theorem C7_witness :
    multiLoop [] none ["junk".toList, posArgTok, "x X".toList] = .error .usage ∧
      (("a".toList, [toolA]) : PyStr × List PyTool).2 ≠ [] ∧
      multiLoop [toolA] (some toolB) [] = .ok [toolA, toolB] := by
  refine ⟨?_, ?_, ?_⟩
  · exact C7_multi_tool_mode_errors.1 ["junk".toList] (by decide) posArgTok
      "x X".toList [] (Or.inl rfl)
  · exact C7_multi_tool_mode_errors.2.1 "a".toList [toolTok, "a first".toList]
      ("a".toList, [toolA]) rfl
  · exact C7_multi_tool_mode_errors.2.2 [toolA] toolB

theorem dictLookup_foldl_insert (ts : List PyTool) (m0 : Dict PyTool) (n : PyStr) :
    dictLookup (ts.foldl (fun m t => dictInsert m t.name t) m0) n =
      (ts.reverse.find? (fun t => decide (t.name = n))).or (dictLookup m0 n) := by
  induction ts generalizing m0 with
  | nil => simp
  | cons t tl ih =>
    rw [List.foldl_cons, ih, List.reverse_cons, List.find?_append]
    cases e : tl.reverse.find? (fun t => decide (t.name = n)) with
    | some t2 => simp [Option.or]
    | none =>
      simp only [Option.none_or]
      by_cases hn : t.name = n
      · rw [← hn, dictLookup_insert_self]
        simp [List.find?, hn, Option.or]
      · rw [dictLookup_insert_ne _ _ _ _ (fun e2 => hn e2.symm)]
        simp [List.find?, hn, Option.or]

/-- Claim C10: when a compilation yields several tools with the same name, the
dispatcher's name-to-definition map retains the one appearing last in the list
(lookup equals a reverse search), a call with that name is dispatched against
that last definition, and the tool listing still returns every definition
including the shadowed ones. -/
theorem C10_duplicate_names_last_wins :
    (∀ (tools : List PyTool) (n : PyStr),
      dictLookup (mkToolMap tools) n =
        tools.reverse.find? (fun t => decide (t.name = n)))
  ∧ (∀ (exec : List PyStr → ExecResult) (base : PyStr) (extra : List PyStr)
      (tools : List PyTool) (n : PyStr) (args : Params) (t2 : PyTool),
      tools.reverse.find? (fun t => decide (t.name = n)) = some t2 →
      call_tool exec base (mkToolMap tools) extra n args =
        dispatchTool exec base t2 args extra)
  ∧ (∀ (tools : List PyTool) (t : PyTool), t ∈ tools →
      build_mcp_tool t ∈ listTools tools) := by
  have h1 : ∀ (tools : List PyTool) (n : PyStr),
      dictLookup (mkToolMap tools) n =
        tools.reverse.find? (fun t => decide (t.name = n)) := by
    intro tools n
    rw [mkToolMap, dictLookup_foldl_insert]
    simp only [dictLookup, Option.or_none]
  refine ⟨h1, ?_, ?_⟩
  · intro exec base extra tools n args t2 hf
    rw [call_tool, h1, hf]
  · intro tools t ht
    exact List.mem_map_of_mem _ ht

/-- Claim C10 witness: with the duplicate-named tools [toolA, toolB] the map
retains toolB, a call for "a" dispatches against toolB, and the listing still
contains toolA's schema. -/
theorem C10_witness :
    dictLookup (mkToolMap [toolA, toolB]) "a".toList = some toolB ∧
      call_tool (fun _ => .timedOut) "cmd".toList (mkToolMap [toolA, toolB]) []
          "a".toList [] =
        dispatchTool (fun _ => .timedOut) "cmd".toList toolB [] [] ∧
      build_mcp_tool toolA ∈ listTools [toolA, toolB] := by
  refine ⟨?_, ?_, ?_⟩
  · exact (C10_duplicate_names_last_wins.1 [toolA, toolB] "a".toList).trans (by decide)
  · exact C10_duplicate_names_last_wins.2.1 (fun _ => .timedOut) "cmd".toList []
      [toolA, toolB] "a".toList [] toolB (by decide)
  · exact C10_duplicate_names_last_wins.2.2 [toolA, toolB] toolA (by decide)

/-- Claim C1 (code bug): with a tool whose definition requires the key `input`,
a call whose argument mapping lacks that key makes build_command raise a
KeyError outside the try/except of the call handler, so the exception escapes
the handler instead of producing a textual result (modelled as `none`); an
unknown tool name, by contrast, does yield the textual result. -/
theorem C1_keyerror_escapes_handler :
    call_tool (fun _ => .timedOut) "convert".toList (mkToolMap [inputOnlyTool]) []
        "convert".toList [] = none ∧
      call_tool (fun _ => .timedOut) "convert".toList (mkToolMap [inputOnlyTool]) []
        "missing".toList [] = some "Unknown tool: missing".toList := by
  decide

end McpExec
